import Mathlib

/-!
Shallow embedding of the Jira digest component
(`custom_components/jira_service`): the data model, the comment
selectors, the date/sanitize helpers, the ticket fetcher, and the
`handle_jira` render loop, together with theorems checking the
natural-language specification against this code.

Python dictionaries coming from the Jira JSON API are modelled as
structures; a field the code reads with a plain subscript that may be
absent is modelled as `Option`, and the subscript access as an
`Except`-raising lookup (Python raises `KeyError`).  Python string
comparison (`<`, `>`) is lexicographic on code points, matching Lean's
`String` order.
-/

/-- A comment author record (`comment["author"]`).  `emailAddress` may be
absent from the JSON payload, hence `Option`; `accountId` and
`displayName` are always present in the shapes the code touches. -/
structure Author where
  displayName : String
  emailAddress : Option String
  accountId : String
deriving DecidableEq, Repr

/-- One comment of a ticket (`fields.comment.comments[i]`). -/
structure JComment where
  author : Author
  body : String
  created : String
  updated : String
deriving DecidableEq, Repr

/-- The `fields` object of a ticket: status name, summary, the
status-category change date and the comment list
(`fields.comment.comments`). -/
structure TicketFields where
  statusName : String
  summary : String
  statuscategorychangedate : String
  comments : List JComment
deriving DecidableEq, Repr

/-- A ticket (issue).  `original_account_id` is the tag the roster-mode
fetcher writes onto each issue; it is absent (`none`) on issues that were
fetched in self mode. -/
structure Ticket where
  key : String
  fields : TicketFields
  original_account_id : Option String
deriving DecidableEq, Repr

/-- A user record returned by the user-lookup endpoint; the code only
reads `displayName`. -/
structure JUser where
  displayName : String
deriving DecidableEq, Repr

/-! ## Pure string helpers -/

/-- Python `str.replace(c, d)` for a one-character pattern: every
occurrence of the character `c` is replaced by `d`. -/
def replaceChar (c d : Char) (s : String) : String :=
  String.mk (s.data.map fun x => if x = c then d else x)

/-- `sanitize_message` (source lines 97-101): replace `\x7b` by `[`, then
`\x7d` by `]`. -/
def sanitize_message (message : String) : String :=
  replaceChar '\x7d' ']' (replaceChar '\x7b' '[' message)

/-- Python `int(...)` on a run of digit characters: fold the decimal
digits.  (On non-digit input Python raises; all claims restrict to
well-formed digit runs.) -/
def toNatDigits (cs : List Char) : Nat :=
  cs.foldl (fun a c => a * 10 + (c.toNat - 48)) 0

/-- Python `str.strip()`: drop leading and trailing whitespace. -/
def pyStrip (s : String) : String :=
  String.mk (((s.data.dropWhile Char.isWhitespace).reverse.dropWhile
    Char.isWhitespace).reverse)

/-- Python `str.rstrip()`: drop trailing whitespace. -/
def pyRstrip (s : String) : String :=
  String.mk ((s.data.reverse.dropWhile Char.isWhitespace).reverse)

/-- Python `str.split(",")` on the character level: cut at every comma,
keeping empty pieces (so `""` splits to `[""]` and `"a,"` to
`["a", ""]`). -/
def splitCommaAux (cur : List Char) : List Char → List (List Char)
  | [] => [cur.reverse]
  | c :: cs =>
    if c = ',' then cur.reverse :: splitCommaAux [] cs
    else splitCommaAux (c :: cur) cs

/-- Python `account_ids.split(",")`. -/
def pySplitComma (s : String) : List String :=
  (splitCommaAux [] s.data).map String.mk

/-- `format_date` (source lines 197-210): fixed-position slicing of the
ISO-8601 timestamp string, 12-hour conversion of the hour, and
re-assembly as `MM/DD/YYYY h:mm AM|PM`. -/
def format_date (date : String) : String :=
  let cs := date.data
  let hour := toNatDigits ((cs.drop 11).take 2)
  let ampm := if 12 ≤ hour then "PM" else "AM"
  let hour := if 12 < hour then hour - 12 else if hour < 1 then 12 else hour
  let minute := String.mk ((cs.drop 14).take 2)
  String.mk ((cs.drop 5).take 2) ++ "/" ++ String.mk ((cs.drop 8).take 2)
    ++ "/" ++ String.mk (cs.take 4) ++ " " ++ toString hour ++ ":"
    ++ minute ++ " " ++ ampm

/-! ## Comment selectors (source lines 163-194) -/

/-- The loop body of `get_latest_comment_from_current_user`, carrying the
`latest_comment` / `latest_timestamp` state.  Reading
`comment["author"]["emailAddress"]` on an author record without that
field raises `KeyError` in Python, hence the `Except`. -/
def selfSelLoop (username : String) :
    List JComment → Option JComment → Option String →
      Except String (Option JComment)
  | [], latest, _ => .ok latest
  | c :: rest, latest, latestTs =>
    match c.author.emailAddress with
    | none => .error "KeyError: emailAddress"
    | some email =>
      if email = username then
        match latestTs with
        | none => selfSelLoop username rest (some c) (some c.created)
        | some ts =>
          if ts < c.created then
            selfSelLoop username rest (some c) (some c.created)
          else
            selfSelLoop username rest latest latestTs
      else
        selfSelLoop username rest latest latestTs

/-- `get_latest_comment_from_current_user` (source lines 163-177). -/
def get_latest_comment_from_current_user (ticket : Ticket)
    (username : String) : Except String (Option JComment) :=
  selfSelLoop username ticket.fields.comments none none

/-- The loop body of `get_latest_comment_from_current_account_id`;
`accountId` is always present, so this loop is total. -/
def rosterSelLoop (account_id : String) :
    List JComment → Option JComment → Option String → Option JComment
  | [], latest, _ => latest
  | c :: rest, latest, latestTs =>
    if c.author.accountId = account_id then
      match latestTs with
      | none => rosterSelLoop account_id rest (some c) (some c.created)
      | some ts =>
        if ts < c.created then
          rosterSelLoop account_id rest (some c) (some c.created)
        else
          rosterSelLoop account_id rest latest latestTs
    else
      rosterSelLoop account_id rest latest latestTs

/-- `get_latest_comment_from_current_account_id` (source lines 180-194). -/
def get_latest_comment_from_current_account_id (ticket : Ticket)
    (account_id : String) : Option JComment :=
  rosterSelLoop account_id ticket.fields.comments none none

/-! ## `format_ticket_details` (source lines 138-160) -/

/-- `format_ticket_details`.  In roster mode the source first computes the
account-id based selection and then immediately overwrites it with
`ticket_details["fields"]["comment"]["comments"][-1]` (source line 149);
`[-1]` on an empty Python list raises `IndexError`. -/
def format_ticket_details (ticket_details : Ticket) (comment_length : Nat)
    (process_current_user_only : Bool) (username account_id : String) :
    Except String String := do
  let latest_status_change_date := ticket_details.fields.statuscategorychangedate
  let latest_comment ←
    if process_current_user_only then
      get_latest_comment_from_current_user ticket_details username
    else
      let _overwritten :=
        get_latest_comment_from_current_account_id ticket_details account_id
      match ticket_details.fields.comments.getLast? with
      | none => .error "IndexError: list index out of range"
      | some c => .ok (some c)
  match latest_comment with
  | none => .ok "N/A\n"
  | some latest =>
    let latest_comment_text := latest.body
    let latest_comment_author := latest.author.displayName
    let latest_comment_date := latest.updated
    .ok ("Status last changed: " ++ format_date latest_status_change_date
      ++ "\nLatest comment by " ++ latest_comment_author ++ " on "
      ++ format_date latest_comment_date ++ "\nText: "
      ++ pyStrip (String.mk (latest_comment_text.data.take comment_length))
      ++ "\n\n")

/-! ## Ticket fetcher (`get_jira_tickets`, source lines 213-266)

The network is modelled by two oracles: `searchAcct a` is the outcome of
the roster-mode search for account id `a` (`none` = non-200 status or a
transport exception, both of which the source absorbs and skips;
`some issues` = the parsed `issues` list of a 200 response), and
`searchSelf` is the outcome of the self-mode search (`none` = the source
returns `None`, `some issues` = the parsed response, represented by its
`issues` list). -/

/-- Tag one fetched issue with the roster account id it was fetched for
(`issue["original_account_id"] = account_id`, source line 235). -/
def tagIssue (account_id : String) (t : Ticket) : Ticket :=
  { t with original_account_id := some account_id }

/-- The roster-mode accumulation loop of `get_jira_tickets`: one search
per parsed account id; a failed search contributes nothing and the loop
continues. -/
def rosterFetchLoop (searchAcct : String → Option (List Ticket)) :
    List String → List Ticket → List Ticket
  | [], acc => acc
  | a :: rest, acc =>
    match searchAcct a with
    | some issues => rosterFetchLoop searchAcct rest (acc ++ issues.map (tagIssue a))
    | none => rosterFetchLoop searchAcct rest acc

/-- `get_jira_tickets` (source lines 213-266).  The roster branch runs
when `account_ids is not None and account_ids.strip() != ""`; it always
returns a result dict (`some`).  Otherwise the self-mode search result is
returned as-is (`none` on failure). -/
def get_jira_tickets (searchSelf : Option (List Ticket))
    (searchAcct : String → Option (List Ticket))
    (account_ids : Option String) : Option (List Ticket) :=
  match account_ids with
  | some s =>
    if pyStrip s ≠ "" then
      some (rosterFetchLoop searchAcct ((pySplitComma s).map pyStrip) [])
    else
      searchSelf
  | none => searchSelf

/-! ## The `handle_jira` render loop (source lines 42-88) -/

/-- One string appended to `message` by the `handle_jira` loop: the
blank-line group separator, a group header, a ticket summary line, or the
`format_ticket_details` output. -/
inductive Chunk where
  | sep : Chunk
  | header (accountId displayName : String) : Chunk
  | ticketLine (t : Ticket) : Chunk
  | details (s : String) : Chunk
deriving DecidableEq, Repr

/-- The text of one chunk, exactly as `handle_jira` appends it. -/
def chunkText (baseurl : String) : Chunk → String
  | .sep => "\n"
  | .header _ displayName => "*" ++ displayName ++ "'s tickets:*\n"
  | .ticketLine t =>
    "*<" ++ baseurl ++ "/browse/" ++ t.key ++ "|" ++ t.key
      ++ ">* - Status: *" ++ t.fields.statusName ++ "* - "
      ++ t.fields.summary ++ "\n"
  | .details s => s

/-- Stable insertion of a ticket into a list sorted by origin tag: the
new ticket goes after all tickets whose tag is less than or equal to its
own (models the stability of Python's `sorted`). -/
def insertByTag (t : Ticket) : List Ticket → List Ticket
  | [] => [t]
  | x :: xs =>
    if x.original_account_id.getD "" ≤ t.original_account_id.getD "" then
      x :: insertByTag t xs
    else
      t :: x :: xs

/-- `sorted(data["issues"], key=lambda x: x["original_account_id"])`
(source lines 46-48): a stable sort on the tag.  Accessing the key on an
untagged issue raises `KeyError` in Python. -/
def sortByOrigin (issues : List Ticket) : Except String (List Ticket) :=
  if issues.all (fun t => t.original_account_id.isSome) then
    .ok (issues.foldl (fun acc t => insertByTag t acc) [])
  else
    .error "KeyError: original_account_id"

/-- The per-ticket part of the loop body: the ticket summary line, the
per-ticket detail fetch (`get_jira_ticket_details`; `none` models both a
non-200 response and a transport exception, either way the source gets
`None` and `format_ticket_details(None, ...)` raises), and the formatted
details. -/
def ticketChunks (getDetails : String → Option Ticket)
    (comment_length : Nat) (pcuo : Bool) (username account_id : String)
    (issue : Ticket) : Except String (List Chunk) :=
  match getDetails issue.key with
  | none => .error "TypeError: NoneType object is not subscriptable"
  | some ticket_details =>
    (format_ticket_details ticket_details comment_length pcuo username
        account_id).map
      (fun d => [Chunk.ticketLine issue, Chunk.details d])

/-- The `for issue in sorted_issues` loop of `handle_jira` (source lines
52-77), carrying `current_account_id` (initially `""`) and emitting the
chunks whose concatenation is `message`.  On a group boundary the source
looks the group's user up with `webClient.get_user`; that call returns
`None` on failure, and `user_data['displayName']` then raises
`TypeError`. -/
def renderLoop (getUser : String → Option JUser)
    (getDetails : String → Option Ticket) (comment_length : Nat)
    (pcuo : Bool) (username : String) (cur : String) :
    List Ticket → Except String (List Chunk)
  | [] => .ok []
  | issue :: rest =>
    if pcuo then do
      let tc ← ticketChunks getDetails comment_length pcuo username cur issue
      let tail ← renderLoop getUser getDetails comment_length pcuo username cur rest
      .ok (tc ++ tail)
    else
      match issue.original_account_id with
      | none => .error "KeyError: original_account_id"
      | some tg =>
        if cur = tg then do
          let tc ← ticketChunks getDetails comment_length pcuo username cur issue
          let tail ← renderLoop getUser getDetails comment_length pcuo username cur rest
          .ok (tc ++ tail)
        else
          match getUser tg with
          | none => .error "TypeError: NoneType object is not subscriptable"
          | some user_data => do
            let tc ← ticketChunks getDetails comment_length pcuo username tg issue
            let tail ← renderLoop getUser getDetails comment_length pcuo username tg rest
            .ok ((if cur ≠ "" then [Chunk.sep] else [])
              ++ Chunk.header tg user_data.displayName :: tc ++ tail)

/-- `handle_jira` (source lines 24-88).  Returns `.error` when the Python
handler would raise (aborting the service call with no digest), and
`.ok (some message)` when it sets the shared `jira_service.jira` state to
`message`.  (Every path that reaches the final `if data:` has a non-empty
response dict in hand, so the state is always set there.) -/
def handle_jira (username : String) (account_ids : Option String)
    (comment_length : Nat) (baseurl : String)
    (searchSelf : Option (List Ticket))
    (searchAcct : String → Option (List Ticket))
    (getUser : String → Option JUser)
    (getDetails : String → Option Ticket) :
    Except String (Option String) := do
  let pcuo : Bool :=
    match account_ids with
    | none => true
    | some s => s.length = 0
  match get_jira_tickets searchSelf searchAcct account_ids with
  | none =>
    -- `data` is `None`; `data["issues"]` on the next line raises.
    .error "TypeError: NoneType object is not subscriptable"
  | some issues => do
    let sorted_issues ← if pcuo then .ok issues else sortByOrigin issues
    let chunks ← renderLoop getUser getDetails comment_length pcuo username
      "" sorted_issues
    let message := String.join (chunks.map (chunkText baseurl))
    let message := sanitize_message message
    let message := pyRstrip message ++ "\n"
    .ok (some message)

/-! ## `WebClient.get_user` (WebClient.py lines 87-123) -/

/-- The possible outcomes of the single-user lookup request: a 200
response with a user payload, a non-200 status, or a transport
exception. -/
inductive GetUserResp where
  | ok (u : JUser) : GetUserResp
  | httpError (status : Nat) : GetUserResp
  | exn (msg : String) : GetUserResp
deriving DecidableEq, Repr

namespace WebClient

/-- The body of the `try:` block of `get_user`: return the payload on
200, otherwise `raise Exception("Failed to retrieve User data")`; a
transport exception also escapes the block. -/
def get_user_tryBody (r : GetUserResp) : Except String JUser :=
  match r with
  | .ok u => .ok u
  | .httpError _ => .error "Failed to retrieve User data"
  | .exn msg => .error msg

/-- `get_user`: the `except Exception` clause wraps the whole `try:`
block, so the `raise` inside it is caught by the function's own handler,
which only logs; the function then falls off the end and returns
`None`. -/
def get_user (r : GetUserResp) : Option JUser :=
  match get_user_tryBody r with
  | .ok u => some u
  | .error _ => none

end WebClient

/-! ## Helper lemmas on strings and lists -/

theorem data_mk (l : List Char) : (String.mk l).data = l := rfl

theorem slash_data : ("/" : String).data = ['/'] := rfl

theorem colon_data : (":" : String).data = [':'] := rfl

theorem space_data : (" " : String).data = [' '] := rfl

theorem am_data : ("AM" : String).data = ['A', 'M'] := rfl

theorem pm_data : ("PM" : String).data = ['P', 'M'] := rfl

/-- Character-level value of `Nat.digitChar` on a decimal digit. -/
theorem digitChar_toNat (n : Nat) (h : n < 10) :
    (Nat.digitChar n).toNat = 48 + n := by
  interval_cases n <;> decide

/-- `toNatDigits` reads back the two digit characters of a two-digit
number. -/
theorem toNatDigits_two (n : Nat) (h : n < 100) :
    toNatDigits [Nat.digitChar (n / 10), Nat.digitChar (n % 10)] = n := by
  unfold toNatDigits
  simp only [List.foldl_cons, List.foldl_nil]
  rw [digitChar_toNat _ (by omega), digitChar_toNat _ (by omega)]
  omega

/-- C5: for every well-formed fixed-width ISO-8601 input string,
`format_date` returns `MM/DD/YYYY h:mm AM|PM` with the hour mapped
00 to 12, 13-23 to 1-11, 12 staying 12, and AM chosen when the source
hour is below 12, PM otherwise; in particular on the three concrete
inputs of the spec. -/
theorem C5_format_date_shape :
    (∀ (Y1 Y2 Y3 Y4 M1 M2 D1 D2 m1 m2 : Char) (hh : Nat) (rest : List Char),
      hh < 24 →
      format_date (String.mk ([Y1, Y2, Y3, Y4, '-', M1, M2, '-', D1, D2, 'T',
          Nat.digitChar (hh / 10), Nat.digitChar (hh % 10), ':', m1, m2] ++ rest))
        = String.mk ([M1, M2, '/', D1, D2, '/', Y1, Y2, Y3, Y4, ' ']
            ++ (toString (if hh = 0 then 12 else if 12 < hh then hh - 12 else hh)).data
            ++ [':', m1, m2]
            ++ (if hh < 12 then [' ', 'A', 'M'] else [' ', 'P', 'M'])))
    ∧ format_date "2024-03-05T14:30:00.000+0000" = "03/05/2024 2:30 PM"
    ∧ format_date "2024-01-01T00:15:00.000+0000" = "01/01/2024 12:15 AM"
    ∧ format_date "2024-01-01T12:00:00.000+0000" = "01/01/2024 12:00 PM" := by
  refine ⟨?_, by decide, by decide, by decide⟩
  intro Y1 Y2 Y3 Y4 M1 M2 D1 D2 m1 m2 hh rest h24
  have hfd : format_date (String.mk ([Y1, Y2, Y3, Y4, '-', M1, M2, '-', D1, D2, 'T',
      Nat.digitChar (hh / 10), Nat.digitChar (hh % 10), ':', m1, m2] ++ rest))
      = String.mk [M1, M2] ++ "/" ++ String.mk [D1, D2] ++ "/"
        ++ String.mk [Y1, Y2, Y3, Y4] ++ " "
        ++ toString (let h := toNatDigits [Nat.digitChar (hh / 10), Nat.digitChar (hh % 10)]
            ; if 12 < h then h - 12 else if h < 1 then 12 else h)
        ++ ":" ++ String.mk [m1, m2] ++ " "
        ++ (if 12 ≤ toNatDigits [Nat.digitChar (hh / 10), Nat.digitChar (hh % 10)]
            then "PM" else "AM") := rfl
  rw [hfd, toNatDigits_two hh (by omega)]
  have e1 : (if 12 < hh then hh - 12 else if hh < 1 then 12 else hh)
      = (if hh = 0 then 12 else if 12 < hh then hh - 12 else hh) := by
    split_ifs <;> omega
  rw [show (let h := hh; if 12 < h then h - 12 else if h < 1 then 12 else h)
      = (if hh = 0 then 12 else if 12 < hh then hh - 12 else hh) from e1]
  rcases Nat.lt_or_ge hh 12 with hc | hc
  · rw [show (if 12 ≤ hh then "PM" else "AM") = "AM" from if_neg (by omega),
      show (if hh < 12 then [' ', 'A', 'M'] else [' ', 'P', 'M'])
        = [' ', 'A', 'M'] from if_pos hc]
    apply String.ext
    simp [String.data_append, data_mk, slash_data, colon_data, space_data, am_data]
  · rw [show (if 12 ≤ hh then "PM" else "AM") = "PM" from if_pos hc,
      show (if hh < 12 then [' ', 'A', 'M'] else [' ', 'P', 'M'])
        = [' ', 'P', 'M'] from if_neg (by omega)]
    apply String.ext
    simp [String.data_append, data_mk, slash_data, colon_data, space_data, pm_data]

/-- C5 witness: the general shape theorem applied at the first concrete
spec example (hour 14). -/
theorem C5_format_date_shape_witness :
    (14 : Nat) < 24 ∧
    format_date (String.mk (['2', '0', '2', '4', '-', '0', '3', '-', '0', '5', 'T',
        Nat.digitChar (14 / 10), Nat.digitChar (14 % 10), ':', '3', '0']
        ++ (":00.000+0000" : String).data))
      = String.mk (['0', '3', '/', '0', '5', '/', '2', '0', '2', '4', ' ']
          ++ (toString (if 14 = 0 then 12 else if 12 < 14 then 14 - 12 else 14)).data
          ++ [':', '3', '0']
          ++ (if 14 < 12 then [' ', 'A', 'M'] else [' ', 'P', 'M'])) :=
  ⟨by decide, C5_format_date_shape.1 '2' '0' '2' '4' '0' '3' '0' '5' '3' '0' 14
    (":00.000+0000" : String).data (by decide)⟩

/-- C6: `sanitize_message` maps every `\x7b` to `[` and every `\x7d` to
`]`, its output contains neither brace character, and it is
idempotent. -/
theorem C6_sanitize_message_spec (x : String) :
    (sanitize_message x).data
        = x.data.map (fun c => if c = '\x7b' then '['
            else if c = '\x7d' then ']' else c)
      ∧ '\x7b' ∉ (sanitize_message x).data
      ∧ '\x7d' ∉ (sanitize_message x).data
      ∧ sanitize_message (sanitize_message x) = sanitize_message x := by
  have hfun : ∀ c : Char,
      (if (if c = '\x7b' then '[' else c) = '\x7d' then ']'
        else if c = '\x7b' then '[' else c)
      = (if c = '\x7b' then '[' else if c = '\x7d' then ']' else c) := by
    intro c
    by_cases h1 : c = '\x7b' <;> by_cases h2 : c = '\x7d' <;> simp [h1, h2]
  have hdata : ∀ y : String, (sanitize_message y).data
      = y.data.map (fun c => if c = '\x7b' then '['
          else if c = '\x7d' then ']' else c) := by
    intro y
    show ((y.data.map fun c => if c = '\x7b' then '[' else c).map
        fun c => if c = '\x7d' then ']' else c) = _
    rw [List.map_map]
    exact List.map_congr_left fun c _ => hfun c
  have hfix : ∀ c : Char,
      (if c = '\x7b' then '[' else if c = '\x7d' then ']' else c) ≠ '\x7b'
      ∧ (if c = '\x7b' then '[' else if c = '\x7d' then ']' else c) ≠ '\x7d' := by
    intro c
    by_cases h1 : c = '\x7b' <;> by_cases h2 : c = '\x7d' <;> simp [h1, h2]
  refine ⟨hdata x, ?_, ?_, ?_⟩
  · rw [hdata x]
    intro hmem
    rcases List.mem_map.1 hmem with ⟨c, _, hc⟩
    exact (hfix c).1 hc
  · rw [hdata x]
    intro hmem
    rcases List.mem_map.1 hmem with ⟨c, _, hc⟩
    exact (hfix c).2 hc
  · apply String.ext
    rw [hdata, hdata x, List.map_map]
    apply List.map_congr_left
    intro c _
    by_cases h1 : c = '\x7b' <;> by_cases h2 : c = '\x7d' <;> simp [h1, h2]

/-! ## C4: self-mode comment selection -/

/-- The comments whose author email matches the filter key exactly
(case-sensitive string equality), in list order. -/
def selfMatches (username : String) (cs : List JComment) : List JComment :=
  cs.filter (fun c => c.author.emailAddress = some username)

theorem selfMatches_cons (username : String) (c : JComment) (rest : List JComment) :
    selfMatches username (c :: rest)
      = if c.author.emailAddress = some username
          then c :: selfMatches username rest
          else selfMatches username rest := by
  by_cases h : c.author.emailAddress = some username <;>
    simp [selfMatches, List.filter_cons, h]

/-- When every comment carries an email, the selection loop returns
without error, and its result is the latest matching comment (or the
carried-in candidate when nothing later beats it). -/
theorem selfSelLoop_ok_char (username : String) :
    ∀ (cs : List JComment) (latest : Option JComment),
    (∀ c ∈ cs, c.author.emailAddress.isSome) →
    ∃ r, selfSelLoop username cs latest (latest.map JComment.created) = .ok r ∧
      ((∃ c, r = some c ∧ (c ∈ selfMatches username cs ∨ latest = some c) ∧
          (∀ c' ∈ selfMatches username cs, c'.created ≤ c.created) ∧
          (∀ l, latest = some l → l.created ≤ c.created))
       ∨ (r = none ∧ latest = none ∧ selfMatches username cs = [])) := by
  intro cs
  induction cs with
  | nil =>
    intro latest _
    refine ⟨latest, rfl, ?_⟩
    cases latest with
    | none => exact Or.inr ⟨rfl, rfl, rfl⟩
    | some l =>
      exact Or.inl ⟨l, rfl, Or.inr rfl, by simp [selfMatches],
        fun l' hl => by cases hl; exact le_refl _⟩
  | cons c rest ih =>
    intro latest hall
    obtain ⟨e, he⟩ := Option.isSome_iff_exists.1 (hall c (List.mem_cons_self c rest))
    have hrest : ∀ c' ∈ rest, c'.author.emailAddress.isSome :=
      fun c' hc' => hall c' (List.mem_cons_of_mem c hc')
    by_cases heq : e = username
    · rw [heq] at he
      have hmatch : selfMatches username (c :: rest)
          = c :: selfMatches username rest := by
        rw [selfMatches_cons, if_pos he]
      cases latest with
      | none =>
        obtain ⟨r, hr, hchar⟩ := ih (some c) hrest
        refine ⟨r, ?_, ?_⟩
        · show selfSelLoop username (c :: rest) none none = .ok r
          simp only [selfSelLoop, he, if_pos rfl]
          exact hr
        · rcases hchar with ⟨d, rd, hdm, hmax, hlatest⟩ | ⟨_, hsome, _⟩
          · refine Or.inl ⟨d, rd, ?_, ?_, ?_⟩
            · rcases hdm with hdm | hdm
              · exact Or.inl (hmatch ▸ List.mem_cons_of_mem c hdm)
              · cases hdm
                exact Or.inl (hmatch ▸ List.mem_cons_self c _)
            · intro c' hc'
              rw [hmatch] at hc'
              rcases List.mem_cons.1 hc' with h | h
              · cases h
                exact hlatest c rfl
              · exact hmax c' h
            · intro l hl
              exact absurd hl (by simp)
          · exact absurd hsome (by simp)
      | some l =>
        by_cases hlt : l.created < c.created
        · obtain ⟨r, hr, hchar⟩ := ih (some c) hrest
          refine ⟨r, ?_, ?_⟩
          · show selfSelLoop username (c :: rest) (some l) (some l.created) = .ok r
            simp only [selfSelLoop, he, if_pos rfl, if_pos hlt]
            exact hr
          · rcases hchar with ⟨d, rd, hdm, hmax, hlatest⟩ | ⟨_, hsome, _⟩
            · refine Or.inl ⟨d, rd, ?_, ?_, ?_⟩
              · rcases hdm with hdm | hdm
                · exact Or.inl (hmatch ▸ List.mem_cons_of_mem c hdm)
                · cases hdm
                  exact Or.inl (hmatch ▸ List.mem_cons_self c _)
              · intro c' hc'
                rw [hmatch] at hc'
                rcases List.mem_cons.1 hc' with h | h
                · cases h
                  exact hlatest c rfl
                · exact hmax c' h
              · intro l' hl'
                cases hl'
                exact le_trans (le_of_lt hlt) (hlatest c rfl)
            · exact absurd hsome (by simp)
        · obtain ⟨r, hr, hchar⟩ := ih (some l) hrest
          refine ⟨r, ?_, ?_⟩
          · show selfSelLoop username (c :: rest) (some l) (some l.created) = .ok r
            simp only [selfSelLoop, he, if_pos rfl, if_neg hlt]
            exact hr
          · rcases hchar with ⟨d, rd, hdm, hmax, hlatest⟩ | ⟨_, hsome, _⟩
            · refine Or.inl ⟨d, rd, ?_, ?_, hlatest⟩
              · rcases hdm with hdm | hdm
                · exact Or.inl (hmatch ▸ List.mem_cons_of_mem c hdm)
                · exact Or.inr hdm
              · intro c' hc'
                rw [hmatch] at hc'
                rcases List.mem_cons.1 hc' with h | h
                · cases h
                  exact le_trans (not_lt.1 hlt) (hlatest l rfl)
                · exact hmax c' h
            · exact absurd hsome (by simp)
    · have hmatch : selfMatches username (c :: rest)
          = selfMatches username rest := by
        rw [selfMatches_cons, if_neg (by simp [he, heq])]
      obtain ⟨r, hr, hchar⟩ := ih latest hrest
      refine ⟨r, ?_, ?_⟩
      · show selfSelLoop username (c :: rest) latest (latest.map JComment.created) = .ok r
        simp only [selfSelLoop, he, if_neg heq]
        exact hr
      · rcases hchar with ⟨d, rd, hdm, hmax, hlatest⟩ | ⟨hnone, hsome, hemp⟩
        · refine Or.inl ⟨d, rd, ?_, ?_, hlatest⟩
          · rcases hdm with hdm | hdm
            · exact Or.inl (hmatch ▸ hdm)
            · exact Or.inr hdm
          · intro c' hc'
            rw [hmatch] at hc'
            exact hmax c' hc'
        · exact Or.inr ⟨hnone, hsome, hmatch ▸ hemp⟩

/-- The selection loop raises `KeyError` as soon as a comment without an
author email is reached. -/
theorem selfSelLoop_err (username : String) :
    ∀ (cs : List JComment) (latest : Option JComment) (latestTs : Option String),
    (∃ c ∈ cs, c.author.emailAddress = none) →
    selfSelLoop username cs latest latestTs = .error "KeyError: emailAddress" := by
  intro cs
  induction cs with
  | nil =>
    intro latest latestTs h
    obtain ⟨c, hc, _⟩ := h
    exact absurd hc (List.not_mem_nil c)
  | cons c rest ih =>
    intro latest latestTs h
    cases hmail : c.author.emailAddress with
    | none => simp only [selfSelLoop, hmail]
    | some e =>
      have hrest : ∃ c' ∈ rest, c'.author.emailAddress = none := by
        obtain ⟨c', hc', hn⟩ := h
        rcases List.mem_cons.1 hc' with rfl | hmem
        · rw [hmail] at hn
          exact absurd hn (by simp)
        · exact ⟨c', hmem, hn⟩
      by_cases h1 : e = username
      · cases latestTs with
        | none =>
          simp only [selfSelLoop, hmail, if_pos h1]
          exact ih _ _ hrest
        | some ts =>
          by_cases h2 : ts < c.created
          · simp only [selfSelLoop, hmail, if_pos h1, if_pos h2]
            exact ih _ _ hrest
          · simp only [selfSelLoop, hmail, if_pos h1, if_neg h2]
            exact ih _ _ hrest
      · simp only [selfSelLoop, hmail, if_neg h1]
        exact ih _ _ hrest

/-- C4 (amended): in self mode the selection filters on exact,
case-sensitive equality between the author email and the filter key and
returns the matching comment with the greatest created timestamp — but a
comment whose author record has no email field makes the selector raise
`KeyError` instead of being excluded. -/
theorem C4_self_selection_amended :
    (∀ (t : Ticket) (username : String),
      (∀ c ∈ t.fields.comments, c.author.emailAddress.isSome) →
      ∃ r, get_latest_comment_from_current_user t username = .ok r ∧
        (r = none ↔ selfMatches username t.fields.comments = []) ∧
        (∀ c, r = some c → c ∈ selfMatches username t.fields.comments ∧
          ∀ c' ∈ selfMatches username t.fields.comments, c'.created ≤ c.created))
    ∧ (∀ (t : Ticket) (username : String),
      (∃ c ∈ t.fields.comments, c.author.emailAddress = none) →
      get_latest_comment_from_current_user t username
        = .error "KeyError: emailAddress") := by
  constructor
  · intro t username hall
    obtain ⟨r, hr, hchar⟩ := selfSelLoop_ok_char username t.fields.comments none hall
    refine ⟨r, hr, ?_, ?_⟩
    · constructor
      · intro hnone
        rcases hchar with ⟨d, rd, _, _, _⟩ | ⟨_, _, hemp⟩
        · rw [hnone] at rd
          exact absurd rd (by simp)
        · exact hemp
      · intro hemp
        rcases hchar with ⟨d, rd, hdm, _, _⟩ | ⟨hnone, _, _⟩
        · rcases hdm with hdm | hdm
          · rw [hemp] at hdm
            exact absurd hdm (List.not_mem_nil d)
          · exact absurd hdm (by simp)
        · exact hnone
    · intro c hc
      rcases hchar with ⟨d, rd, hdm, hmax, _⟩ | ⟨hnone, _, _⟩
      · rw [hc] at rd
        cases rd
        rcases hdm with hdm | hdm
        · exact ⟨hdm, hmax⟩
        · exact absurd hdm (by simp)
      · rw [hc] at hnone
        exact absurd hnone (by simp)
  · intro t username h
    exact selfSelLoop_err username t.fields.comments none none h

/-- A ticket whose single comment has no author email field. -/
def noMailTicket : Ticket :=
  { key := "PROJ-1"
    fields :=
      { statusName := "Open"
        summary := "Fix bug"
        statuscategorychangedate := "2024-01-02T10:00:00.000+0000"
        comments := [{ author := { displayName := "NoMail", emailAddress := none,
                                   accountId := "acc1" }
                       body := "hello"
                       created := "2024-01-01T10:00:00.000+0000"
                       updated := "2024-01-01T10:00:00.000+0000" }] }
    original_account_id := none }

/-- C4 counterexample: on a comment without an author email field the
self-mode selector raises (`KeyError`) instead of excluding the comment
without error. -/
theorem C4_missing_email_raises :
    get_latest_comment_from_current_user noMailTicket "a@x.com"
        = .error "KeyError: emailAddress"
      ∧ ∀ r, get_latest_comment_from_current_user noMailTicket "a@x.com"
        ≠ .ok r := by
  have h : get_latest_comment_from_current_user noMailTicket "a@x.com"
      = .error "KeyError: emailAddress" := rfl
  exact ⟨h, fun r hr => by rw [h] at hr; exact Except.noConfusion hr⟩

/-- The spec's self-mode selector example: two comments by `a@x.com`
(created T10 and T12) and one by `b@x.com` (T14). -/
def threeCommentTicket : Ticket :=
  { key := "PROJ-2"
    fields :=
      { statusName := "Open"
        summary := "Fix bug"
        statuscategorychangedate := "2024-01-02T10:00:00.000+0000"
        comments :=
          [{ author := { displayName := "A", emailAddress := some "a@x.com",
                         accountId := "accA" }
             body := "one"
             created := "2024-01-01T10:00:00.000+0000"
             updated := "2024-01-01T10:00:00.000+0000" },
           { author := { displayName := "A", emailAddress := some "a@x.com",
                         accountId := "accA" }
             body := "two"
             created := "2024-01-01T12:00:00.000+0000"
             updated := "2024-01-01T12:00:00.000+0000" },
           { author := { displayName := "B", emailAddress := some "b@x.com",
                         accountId := "accB" }
             body := "three"
             created := "2024-01-01T14:00:00.000+0000"
             updated := "2024-01-01T14:00:00.000+0000" }] }
    original_account_id := none }

/-- C4 witness: the amended selection theorem applied to the spec's
three-comment example. -/
theorem C4_self_selection_amended_witness :
    (∀ c ∈ threeCommentTicket.fields.comments, c.author.emailAddress.isSome)
    ∧ ∃ r, get_latest_comment_from_current_user threeCommentTicket "a@x.com" = .ok r ∧
      (r = none ↔ selfMatches "a@x.com" threeCommentTicket.fields.comments = []) ∧
      (∀ c, r = some c → c ∈ selfMatches "a@x.com" threeCommentTicket.fields.comments ∧
        ∀ c' ∈ selfMatches "a@x.com" threeCommentTicket.fields.comments,
          c'.created ≤ c.created) :=
  ⟨by decide, C4_self_selection_amended.1 threeCommentTicket "a@x.com" (by decide)⟩

/-! ## C1 and C2: what `format_ticket_details` actually surfaces in
roster mode -/

/-- A comment by the group's account id `g`, created at T10. -/
def groupComment : JComment :=
  { author := { displayName := "Gee", emailAddress := some "g@x.com",
                accountId := "g" }
    body := "from the group"
    created := "2024-01-01T10:00:00.000+0000"
    updated := "2024-01-01T10:00:00.000+0000" }

/-- A later comment by a different account id, last in the list. -/
def otherComment : JComment :=
  { author := { displayName := "Other", emailAddress := some "o@x.com",
                accountId := "other" }
    body := "latest text"
    created := "2024-01-01T12:00:00.000+0000"
    updated := "2024-01-01T12:00:00.000+0000" }

/-- A roster-mode ticket whose only comment authored by the group `g` is
the first one; the last comment is by someone else. -/
def rosterTicket : Ticket :=
  { key := "PROJ-3"
    fields :=
      { statusName := "Open"
        summary := "Fix bug"
        statuscategorychangedate := "2024-01-02T10:00:00.000+0000"
        comments := [groupComment, otherComment] }
    original_account_id := some "g" }

/-- C1 (code bug, source line 149): the account-id selector picks the
group's latest matching comment, but `format_ticket_details` surfaces the
list's last comment instead — here a comment whose author account id is
not the group's. -/
theorem C1_roster_block_shows_last_comment :
    get_latest_comment_from_current_account_id rosterTicket "g"
        = some groupComment
      ∧ format_ticket_details rosterTicket 80 false "user" "g"
        = .ok ("Status last changed: 01/02/2024 10:00 AM\n"
            ++ "Latest comment by Other on 01/01/2024 12:00 PM\n"
            ++ "Text: latest text\n\n")
      ∧ otherComment.author.accountId ≠ "g" := by
  refine ⟨rfl, rfl, by decide⟩

/-- A roster-mode ticket with an empty comment list. -/
def emptyCommentsTicket : Ticket :=
  { key := "PROJ-4"
    fields :=
      { statusName := "Open"
        summary := "Fix bug"
        statuscategorychangedate := "2024-01-02T10:00:00.000+0000"
        comments := [] }
    original_account_id := some "g" }

/-- C2 (code bug, source line 149): in roster mode a ticket with no
comments makes `format_ticket_details` raise `IndexError` (Python
`comments[-1]` on an empty list) instead of emitting the `N/A`
placeholder; in self mode the same ticket does produce `N/A`. -/
theorem C2_roster_empty_comments_raise :
    format_ticket_details emptyCommentsTicket 80 false "user" "g"
        = .error "IndexError: list index out of range"
      ∧ (∀ s, format_ticket_details emptyCommentsTicket 80 false "user" "g"
          ≠ .ok s)
      ∧ format_ticket_details emptyCommentsTicket 80 true "user" ""
        = .ok "N/A\n" := by
  have h : format_ticket_details emptyCommentsTicket 80 false "user" "g"
      = .error "IndexError: list index out of range" := rfl
  exact ⟨h, fun s hs => by rw [h] at hs; exact Except.noConfusion hs, rfl⟩

/-! ## C7: roster-mode fetch failure isolation -/

/-- The roster accumulation loop equals the concatenation, over the
parsed account ids, of each id's (possibly empty) tagged result list. -/
theorem rosterFetchLoop_eq (sa : String → Option (List Ticket)) :
    ∀ (ids : List String) (acc : List Ticket),
    rosterFetchLoop sa ids acc
      = acc ++ ids.flatMap (fun a => ((sa a).getD []).map (tagIssue a)) := by
  intro ids
  induction ids with
  | nil => intro acc; simp [rosterFetchLoop]
  | cons a rest ih =>
    intro acc
    cases h : sa a with
    | none => simp [rosterFetchLoop, h, ih]
    | some issues => simp [rosterFetchLoop, h, ih]

/-- C7: a failed identity search contributes zero tickets without
aborting the others — in general the roster fetch returns the
concatenation of the per-identity results with failures absorbed as
empty, and on the spec example `["u1", "u2"]` with `u1` failing the
result is exactly the one ticket tagged `u2`. -/
theorem C7_roster_failure_isolated (searchSelf : Option (List Ticket))
    (searchAcct : String → Option (List Ticket)) (t : Ticket)
    (h1 : searchAcct "u1" = none) (h2 : searchAcct "u2" = some [t]) :
    get_jira_tickets searchSelf searchAcct (some "u1,u2")
        = some [tagIssue "u2" t]
      ∧ (∀ (ss : Option (List Ticket)) (sa : String → Option (List Ticket))
          (ids : String), pyStrip ids ≠ "" →
          get_jira_tickets ss sa (some ids)
            = some (((pySplitComma ids).map pyStrip).flatMap
                (fun a => ((sa a).getD []).map (tagIssue a)))) := by
  constructor
  · have hsplit : (pySplitComma "u1,u2").map pyStrip = ["u1", "u2"] := by decide
    simp only [get_jira_tickets]
    rw [if_pos (by decide), hsplit]
    simp [rosterFetchLoop, h1, h2]
  · intro ss sa ids hne
    simp only [get_jira_tickets]
    rw [if_pos hne, rosterFetchLoop_eq]
    simp

/-- A sample ticket for the C7 witness. -/
def sampleTicket : Ticket :=
  { key := "PROJ-5"
    fields :=
      { statusName := "Open"
        summary := "Fix bug"
        statuscategorychangedate := "2024-01-02T10:00:00.000+0000"
        comments := [] }
    original_account_id := none }

/-- A search oracle that fails for `u1` and returns one ticket for `u2`. -/
def sampleSearch : String → Option (List Ticket) :=
  fun a => if a = "u2" then some [sampleTicket] else none

/-- C7 witness: the isolation theorem applied to the concrete oracle. -/
theorem C7_roster_failure_isolated_witness :
    sampleSearch "u1" = none ∧ sampleSearch "u2" = some [sampleTicket]
      ∧ get_jira_tickets none sampleSearch (some "u1,u2")
        = some [tagIssue "u2" sampleTicket] :=
  ⟨by decide, by decide,
    (C7_roster_failure_isolated none sampleSearch sampleTicket (by decide)
      (by decide)).1⟩

/-! ## C8: self-mode fetch failure is fatal -/

/-- C8: in self mode (no account id list, or an empty one) a failed
ticket search makes `handle_jira` raise before any rendering — no digest
is produced and the shared state is never set. -/
theorem C8_self_failure_fatal (username : String) (account_ids : Option String)
    (comment_length : Nat) (baseurl : String)
    (searchAcct : String → Option (List Ticket))
    (getUser : String → Option JUser) (getDetails : String → Option Ticket)
    (hmode : account_ids = none ∨ account_ids = some "") :
    handle_jira username account_ids comment_length baseurl none searchAcct
        getUser getDetails
        = .error "TypeError: NoneType object is not subscriptable"
      ∧ ∀ m, handle_jira username account_ids comment_length baseurl none
          searchAcct getUser getDetails ≠ .ok (some m) := by
  have h : handle_jira username account_ids comment_length baseurl none
      searchAcct getUser getDetails
      = .error "TypeError: NoneType object is not subscriptable" := by
    rcases hmode with rfl | rfl
    · rfl
    · rfl
  exact ⟨h, fun m hm => by rw [h] at hm; exact Except.noConfusion hm⟩

/-- C8 witness: the fatality theorem at a concrete configuration. -/
theorem C8_self_failure_fatal_witness :
    ((none : Option String) = none ∨ (none : Option String) = some "")
      ∧ handle_jira "user" none 80 "https://jira" none (fun _ => none)
          (fun _ => none) (fun _ => none)
        = .error "TypeError: NoneType object is not subscriptable" :=
  ⟨Or.inl rfl,
    (C8_self_failure_fatal "user" none 80 "https://jira" (fun _ => none)
      (fun _ => none) (fun _ => none) (Or.inl rfl)).1⟩

/-! ## C10: swallowed `get_user` failures abort the whole build -/

/-- C10: every failed single-user lookup makes `WebClient.get_user`
return `none` instead of raising, and in roster mode a `none` result at a
group header access aborts the whole `handle_jira` build with a
`TypeError` — no digest is produced. -/
theorem C10_get_user_none_aborts_build :
    (∀ r : GetUserResp, (∀ u, r ≠ .ok u) → WebClient.get_user r = none)
      ∧ (∀ (username : String) (comment_length : Nat) (baseurl : String)
          (searchSelf : Option (List Ticket))
          (searchAcct : String → Option (List Ticket))
          (getUser : String → Option JUser)
          (getDetails : String → Option Ticket) (t : Ticket),
          searchAcct "u2" = some [t] → getUser "u2" = none →
          handle_jira username (some "u2") comment_length baseurl searchSelf
              searchAcct getUser getDetails
              = .error "TypeError: NoneType object is not subscriptable"
            ∧ ∀ m, handle_jira username (some "u2") comment_length baseurl
                searchSelf searchAcct getUser getDetails ≠ .ok (some m)) := by
  constructor
  · intro r h
    cases r with
    | ok u => exact absurd rfl (h u)
    | httpError s => rfl
    | exn m => rfl
  · intro username comment_length baseurl searchSelf searchAcct getUser
      getDetails t hsa hgu
    have hfetch : get_jira_tickets searchSelf searchAcct (some "u2")
        = some [tagIssue "u2" t] := by
      have hsplit : (pySplitComma "u2").map pyStrip = ["u2"] := by decide
      simp only [get_jira_tickets]
      rw [if_pos (by decide), hsplit]
      simp [rosterFetchLoop, hsa]
    have hsort : sortByOrigin [tagIssue "u2" t] = .ok [tagIssue "u2" t] := by
      simp [sortByOrigin, tagIssue, insertByTag]
    have hrender : renderLoop getUser getDetails comment_length false username
        "" [tagIssue "u2" t]
        = .error "TypeError: NoneType object is not subscriptable" := by
      simp only [renderLoop, tagIssue]
      rw [if_neg (by decide : ¬ ("" : String) = "u2")]
      simp [hgu]
    have h : handle_jira username (some "u2") comment_length baseurl
        searchSelf searchAcct getUser getDetails
        = .error "TypeError: NoneType object is not subscriptable" := by
      simp only [handle_jira, hfetch]
      rw [show (decide (("u2" : String).length = 0)) = false from by decide]
      simp only [Bool.false_eq_true, if_false, hsort]
      rw [show ∀ (x : List Ticket) (f : List Ticket → Except String (Option String)),
          (Except.ok x >>= f) = f x from fun x f => rfl]
      rw [hrender]
      rfl
    exact ⟨h, fun m hm => by rw [h] at hm; exact Except.noConfusion hm⟩

/-- C10 witness: the abort theorem at a concrete oracle where the `u2`
group-header lookup fails. -/
theorem C10_get_user_none_aborts_build_witness :
    sampleSearch "u2" = some [sampleTicket]
      ∧ (fun (_ : String) => (none : Option JUser)) "u2" = none
      ∧ handle_jira "user" (some "u2") 80 "https://jira" none sampleSearch
          (fun _ => none) (fun _ => none)
        = .error "TypeError: NoneType object is not subscriptable" :=
  ⟨by decide, rfl,
    (C10_get_user_none_aborts_build.2 "user" 80 "https://jira" none
      sampleSearch (fun _ => none) (fun _ => none) sampleTicket (by decide)
      rfl).1⟩

/-! ## C3: reference resolution (`[~accountid:<id>]` tokens)

The repository contains the batched lookup endpoint wrapper
(`jira_web_client.get_bulk_users`, jira_web_client.py lines 125-165) but
the token-scanning caller that feeds it is not among the source files
under review; the scanning/replacement pass is therefore modelled from
the spec (section 4.4). -/

/-- The possible outcomes of the bulk user-lookup request. -/
inductive BulkResp where
  | ok (users : List (String × String)) : BulkResp
  | httpError (status : Nat) : BulkResp
  | exn (msg : String) : BulkResp
deriving DecidableEq, Repr

/-- `jira_web_client.get_bulk_users` (jira_web_client.py lines 125-165):
returns the payload on a 200 response; on a non-200 status the `raise`
inside the `try:` block is caught by the function's own
`except Exception` handler, and on a transport exception likewise, so
every failure yields `None`. -/
def get_bulk_users (r : BulkResp) : Option (List (String × String)) :=
  match r with
  | .ok users => some users
  | .httpError _ => none
  | .exn _ => none

/-- Modelled from the spec: recognise a leading token of the exact shape
`[~accountid:<id>]` (id = any run of characters excluding `]`), returning
the id and the remainder after the closing bracket. -/
def scanToken (cs : List Char) : Option (String × List Char) :=
  if cs.take 12 = ("[~accountid:" : String).data then
    let rest := cs.drop 12
    let idPart := rest.takeWhile (fun c => c ≠ ']')
    match rest.drop idPart.length with
    | ']' :: after => some (String.mk idPart, after)
    | _ => none
  else none

/-- Modelled from the spec: collect the ids of all tokens in the text, in
order of appearance (duplicates kept; the lookup set is deduplicated
separately).  The fuel argument, initially the text length, bounds the
recursion; every step consumes at least one character, so it never runs
out. -/
def collectIdsAux : Nat → List Char → List String
  | 0, _ => []
  | _, [] => []
  | fuel + 1, c :: rest =>
    match scanToken (c :: rest) with
    | some (id, after) => id :: collectIdsAux fuel after
    | none => collectIdsAux fuel rest

/-- The token ids of a text, in order of appearance. -/
def collectIds (s : String) : List String :=
  collectIdsAux s.data.length s.data

/-- The distinct elements of a list, in order of first appearance. -/
def firstOcc : List String → List String
  | [] => []
  | x :: xs => x :: (firstOcc xs).filter (fun y => y ≠ x)

/-- Modelled from the spec: replace every token whose id resolves with
the display name; a token whose id has no record stays verbatim. -/
def replaceTokensAux (f : String → Option String) :
    Nat → List Char → List Char
  | 0, cs => cs
  | _, [] => []
  | fuel + 1, c :: rest =>
    match scanToken (c :: rest) with
    | some (id, after) =>
      (match f id with
       | some name => name.data
       | none => ("[~accountid:" : String).data ++ id.data ++ [']'])
        ++ replaceTokensAux f fuel after
    | none => c :: replaceTokensAux f fuel rest

/-- Modelled from the spec (section 4.4): scan the rendered text for
`[~accountid:<id>]` tokens, deduplicate the ids in order of first
appearance, perform one batched lookup (`get_bulk_users`) for that list,
and replace every occurrence of each resolvable token with the
corresponding display name; a failed lookup leaves every token
verbatim. -/
def resolve_references (resp : List String → BulkResp) (text : String) :
    String :=
  let ids := firstOcc (collectIds text)
  let table := (get_bulk_users (resp ids)).getD []
  let lookup := fun id => (table.find? (fun p => p.1 = id)).map Prod.snd
  String.mk (replaceTokensAux lookup text.data.length text.data)

/-- A bulk-lookup oracle resolving exactly the deduplicated set
`["123"]` to `Jane`; any other request fails. -/
def janeBulk : List String → BulkResp :=
  fun ids => if ids = ["123"] then .ok [("123", "Jane")] else .exn "unexpected"

/-- C3: on the spec example, the scan finds the deduplicated id set
`["123"]` (both occurrences collapse to one lookup key) and one batched
lookup resolving `123 -> Jane` rewrites every occurrence, producing
`"Hi Jane, see Jane"`. -/
theorem C3_reference_resolution :
    collectIds "Hi [~accountid:123], see [~accountid:123]" = ["123", "123"]
      ∧ firstOcc (collectIds "Hi [~accountid:123], see [~accountid:123]")
        = ["123"]
      ∧ resolve_references janeBulk "Hi [~accountid:123], see [~accountid:123]"
        = "Hi Jane, see Jane" := by
  refine ⟨by decide, by decide, by decide⟩

/-! ## C9: group headers in the roster render -/

/-- The shape of one emitted chunk, forgetting display names and detail
text: enough to state where headers and separators sit relative to the
ticket blocks. -/
inductive Shape where
  | sep : Shape
  | header (id : String) : Shape
  | ticketKey (key : String) : Shape
  | detailText : Shape
deriving DecidableEq, Repr

/-- Forget a chunk down to its shape. -/
def shapeOf : Chunk → Shape
  | .sep => .sep
  | .header id _ => .header id
  | .ticketLine t => .ticketKey t.key
  | .details _ => .detailText

/-- The account ids of the header chunks, in emission order. -/
def headerIds (evs : List Chunk) : List String :=
  evs.filterMap fun e =>
    match e with
    | .header id _ => some id
    | _ => none

/-- The header ids of a shape list. -/
def shapeHeaderIds (ss : List Shape) : List String :=
  ss.filterMap fun s =>
    match s with
    | .header id => some id
    | _ => none

/-- Consecutive runs of tickets sharing an origin identity, over
(identity, ticket key) pairs. -/
def groupRuns : List (String × String) → List (String × List String)
  | [] => []
  | (tg, k) :: rest =>
    match groupRuns rest with
    | [] => [(tg, [k])]
    | (tg2, ks) :: gs =>
      if tg = tg2 then (tg, k :: ks) :: gs
      else (tg, [k]) :: (tg2, ks) :: gs

/-- The shape of one group's body: its header followed by one ticket
line and one detail block per ticket. -/
def specGroupShape (g : String × List String) : List Shape :=
  Shape.header g.1 :: g.2.flatMap (fun k => [Shape.ticketKey k, Shape.detailText])

/-- The spec's grouped rendering: every group headed once, at its start,
with a blank-line separator before every group except the first. -/
def specGroupedShape : List (String × List String) → List Shape
  | [] => []
  | g :: gs => specGroupShape g ++ gs.flatMap (fun g2 => Shape.sep :: specGroupShape g2)

/-- The grouped rendering as resumed from a current identity `cur`: the
first group is a continuation (no header) when its identity equals
`cur`, and the separator before a header is dropped only when `cur` is
the initial sentinel `""`. -/
def specFrom (cur : String) : List (String × List String) → List Shape
  | [] => []
  | (tg, ks) :: gs =>
    (if tg = cur then ks.flatMap (fun k => [Shape.ticketKey k, Shape.detailText])
     else (if cur ≠ "" then [Shape.sep] else [])
       ++ Shape.header tg :: ks.flatMap (fun k => [Shape.ticketKey k, Shape.detailText]))
      ++ specFrom tg gs

/-- Unfolding `specFrom` over `groupRuns` one ticket at a time: exactly
the step the render loop takes. -/
theorem specFrom_cons (cur tg k : String) (ps : List (String × String)) :
    specFrom cur (groupRuns ((tg, k) :: ps))
      = (if tg = cur then []
          else (if cur ≠ "" then [Shape.sep] else []) ++ [Shape.header tg])
        ++ [Shape.ticketKey k, Shape.detailText] ++ specFrom tg (groupRuns ps) := by
  cases hg : groupRuns ps with
  | nil =>
    simp only [groupRuns, hg, specFrom]
    by_cases h : tg = cur <;> simp [h]
  | cons g gs =>
    obtain ⟨tg2, ks⟩ := g
    by_cases h : tg = tg2
    · simp only [groupRuns, hg, if_pos h, specFrom]
      subst h
      by_cases h2 : tg = cur <;> simp [h2]
    · simp only [groupRuns, hg, if_neg h, specFrom]
      by_cases h2 : tg = cur <;> simp [h2, h]

theorem except_bind_ok {ε α β : Type} (a : α) (f : α → Except ε β) :
    (Except.ok a >>= f : Except ε β) = f a := rfl

theorem except_bind_error {ε α β : Type} (e : ε) (f : α → Except ε β) :
    (Except.error e >>= f : Except ε β) = Except.error e := rfl

/-- A successful `ticketChunks` call emits exactly one ticket line and
one details chunk. -/
theorem ticketChunks_ok_shape (gd : String → Option Ticket) (cl : Nat)
    (pc : Bool) (un aid : String) (issue : Ticket) (tc : List Chunk)
    (h : ticketChunks gd cl pc un aid issue = .ok tc) :
    ∃ d, tc = [Chunk.ticketLine issue, Chunk.details d] := by
  unfold ticketChunks at h
  cases hd : gd issue.key with
  | none => simp only [hd] at h; exact absurd h (by simp)
  | some td =>
    simp only [hd] at h
    cases hf : format_ticket_details td cl pc un aid with
    | error e => rw [hf] at h; exact absurd h (by simp [Except.map])
    | ok d =>
      rw [hf] at h
      exact ⟨d, by simpa [Except.map] using h.symm⟩

/-- The roster render loop emits exactly the grouped shape resumed from
the carried `current_account_id`. -/
theorem renderLoop_shape (getUser : String → Option JUser)
    (getDetails : String → Option Ticket) (cl : Nat) (username : String) :
    ∀ (issues : List Ticket) (cur : String) (evs : List Chunk),
    (∀ t ∈ issues, t.original_account_id.isSome) →
    renderLoop getUser getDetails cl false username cur issues = .ok evs →
    evs.map shapeOf
      = specFrom cur (groupRuns (issues.map
          (fun t => (t.original_account_id.getD "", t.key)))) := by
  intro issues
  induction issues with
  | nil =>
    intro cur evs _ h
    simp only [renderLoop, Except.ok.injEq] at h
    subst h
    rfl
  | cons issue rest ih =>
    intro cur evs hTags h
    obtain ⟨tg, hTg⟩ :=
      Option.isSome_iff_exists.1 (hTags issue (List.mem_cons_self _ _))
    have hRest : ∀ t ∈ rest, t.original_account_id.isSome :=
      fun t ht => hTags t (List.mem_cons_of_mem _ ht)
    have hPairs : (issue :: rest).map
        (fun t => (t.original_account_id.getD "", t.key))
        = (tg, issue.key) :: rest.map
            (fun t => (t.original_account_id.getD "", t.key)) := by
      simp [hTg]
    rw [hPairs, specFrom_cons]
    simp only [renderLoop, hTg, Bool.false_eq_true, if_false] at h
    by_cases hc : cur = tg
    · rw [if_pos hc] at h
      cases htc : ticketChunks getDetails cl false username cur issue with
      | error e => rw [htc, except_bind_error] at h; exact absurd h (by simp)
      | ok tc =>
        rw [htc, except_bind_ok] at h
        cases hre : renderLoop getUser getDetails cl false username cur rest with
        | error e => rw [hre, except_bind_error] at h; exact absurd h (by simp)
        | ok tail =>
          rw [hre, except_bind_ok] at h
          have hevs : evs = tc ++ tail := by
            simpa using h.symm
          obtain ⟨d, hd⟩ := ticketChunks_ok_shape _ _ _ _ _ _ _ htc
          have htail := ih cur tail hRest hre
          subst hevs hd
          rw [if_pos hc.symm, ← hc]
          simp [shapeOf, htail]
    · rw [if_neg hc] at h
      cases hgu : getUser tg with
      | none => simp only [hgu] at h; exact absurd h (by simp)
      | some u =>
        simp only [hgu] at h
        cases htc : ticketChunks getDetails cl false username tg issue with
        | error e => rw [htc, except_bind_error] at h; exact absurd h (by simp)
        | ok tc =>
          rw [htc, except_bind_ok] at h
          cases hre : renderLoop getUser getDetails cl false username tg rest with
          | error e => rw [hre, except_bind_error] at h; exact absurd h (by simp)
          | ok tail =>
            rw [hre, except_bind_ok] at h
            have hevs : evs = (if cur ≠ "" then [Chunk.sep] else [])
                ++ (Chunk.header tg u.displayName :: tc) ++ tail := by
              simpa using h.symm
            obtain ⟨d, hd⟩ := ticketChunks_ok_shape _ _ _ _ _ _ _ htc
            have htail := ih tg tail hRest hre
            subst hevs hd
            rw [show (if tg = cur then ([] : List Shape)
                else (if cur ≠ "" then [Shape.sep] else []) ++ [Shape.header tg])
                = (if cur ≠ "" then [Shape.sep] else []) ++ [Shape.header tg]
                from if_neg (fun h' => hc h'.symm)]
            by_cases hne : cur = ""
            · subst hne
              simp [shapeOf, htail]
            · rw [if_pos hne, if_pos hne]
              simp [shapeOf, htail]

/-- The header ids the loop emits, computed directly over the identity
sequence with the carried `current_account_id`. -/
def headerScan : String → List String → List String
  | _, [] => []
  | cur, x :: xs => if x = cur then headerScan cur xs else x :: headerScan x xs

theorem shapeHeaderIds_append (a b : List Shape) :
    shapeHeaderIds (a ++ b) = shapeHeaderIds a ++ shapeHeaderIds b := by
  simp [shapeHeaderIds, List.filterMap_append]

theorem shapeHeaderIds_ticks (ks : List String) :
    shapeHeaderIds (ks.flatMap (fun k => [Shape.ticketKey k, Shape.detailText]))
      = [] := by
  induction ks with
  | nil => rfl
  | cons k ks ih => simpa [shapeHeaderIds, List.filterMap_cons] using ih

theorem headerIds_eq_shape (evs : List Chunk) :
    shapeHeaderIds (evs.map shapeOf) = headerIds evs := by
  induction evs with
  | nil => rfl
  | cons e evs ih =>
    cases e <;> simpa [shapeOf, shapeHeaderIds, headerIds, List.filterMap_cons]
      using ih

/-- The headers of the grouped shape are the identity scan over the
per-ticket identity sequence. -/
theorem shapeHeaderIds_specFrom :
    ∀ (ps : List (String × String)) (cur : String),
    shapeHeaderIds (specFrom cur (groupRuns ps))
      = headerScan cur (ps.map Prod.fst) := by
  intro ps
  induction ps with
  | nil => intro cur; rfl
  | cons p ps ih =>
    obtain ⟨tg, k⟩ := p
    intro cur
    rw [specFrom_cons, shapeHeaderIds_append, shapeHeaderIds_append]
    have h3 : shapeHeaderIds [Shape.ticketKey k, Shape.detailText] = [] := rfl
    rw [h3, ih tg]
    by_cases h : tg = cur
    · rw [if_pos h, h]
      simp [headerScan, shapeHeaderIds]
    · have h2 : shapeHeaderIds ((if cur ≠ "" then [Shape.sep] else [])
          ++ [Shape.header tg]) = [tg] := by
        by_cases hne : cur = "" <;> simp [hne, shapeHeaderIds]
      rw [if_neg h, h2]
      simp [headerScan, h]

theorem firstOcc_subset : ∀ (l : List String) (z : String),
    z ∈ firstOcc l → z ∈ l := by
  intro l
  induction l with
  | nil => intro z h; exact absurd h (List.not_mem_nil z)
  | cons x xs ih =>
    intro z h
    rcases List.mem_cons.1 h with rfl | h
    · exact List.mem_cons_self _ _
    · exact List.mem_cons_of_mem _ (ih z (List.mem_of_mem_filter h))

/-- On a sorted suffix the loop's identity scan computes exactly the
first occurrences after the carried identity. -/
theorem headerScan_sorted :
    ∀ (xs : List String) (x : String),
    List.Pairwise (· ≤ ·) (x :: xs) →
    headerScan x xs = (firstOcc xs).filter (fun y => y ≠ x) := by
  intro xs
  induction xs with
  | nil => intro x _; rfl
  | cons y ys ih =>
    intro x hp
    obtain ⟨hx, hp2⟩ := List.pairwise_cons.1 hp
    by_cases he : y = x
    · subst he
      have step : headerScan y (y :: ys) = headerScan y ys := by
        simp [headerScan]
      rw [step, ih y hp2]
      show _ = (y :: (firstOcc ys).filter (fun z => z ≠ y)).filter (fun z => z ≠ y)
      rw [List.filter_cons]
      simp [List.filter_filter]
    · have step : headerScan x (y :: ys) = y :: headerScan y ys := by
        simp [headerScan, he]
      rw [step, ih y hp2]
      show _ = (y :: (firstOcc ys).filter (fun z => z ≠ y)).filter (fun z => z ≠ x)
      rw [List.filter_cons]
      have hy : (decide (y ≠ x)) = true := by simp [he]
      rw [if_pos hy]
      have hrest : ((firstOcc ys).filter (fun z => z ≠ y)).filter (fun z => z ≠ x)
          = (firstOcc ys).filter (fun z => z ≠ y) := by
        apply List.filter_eq_self.2
        intro z hz
        have hz1 : z ∈ firstOcc ys := List.mem_of_mem_filter hz
        have hzys : z ∈ ys := firstOcc_subset ys z hz1
        have h1 : y ≤ z := (List.pairwise_cons.1 hp2).1 z hzys
        have h2 : x ≤ y := hx y (List.mem_cons_self _ _)
        simp only [decide_eq_true_eq]
        intro hzx
        exact he (le_antisymm h2 (hzx ▸ h1)).symm
      rw [hrest]

/-- With a sorted identity list not containing the sentinel `""`, the
scan from the sentinel is exactly the distinct identities in order of
first occurrence. -/
theorem headerScan_firstOcc (l : List String)
    (hs : List.Pairwise (· ≤ ·) l) (hne : "" ∉ l) :
    headerScan "" l = firstOcc l := by
  cases l with
  | nil => rfl
  | cons x xs =>
    have hx : x ≠ "" := fun h => hne (h ▸ List.mem_cons_self _ _)
    have step : headerScan "" (x :: xs) = x :: headerScan x xs := by
      simp [headerScan, hx]
    rw [step, headerScan_sorted xs x hs]
    rfl

theorem count_firstOcc : ∀ (l : List String) (u : String),
    (firstOcc l).count u = if u ∈ l then 1 else 0 := by
  intro l
  induction l with
  | nil => intro u; rfl
  | cons x xs ih =>
    intro u
    show (x :: (firstOcc xs).filter (fun y => y ≠ x)).count u = _
    rw [List.count_cons]
    by_cases he : u = x
    · subst he
      have hnot : u ∉ (firstOcc xs).filter (fun y => y ≠ u) := by
        intro hmem
        have := (List.mem_filter.1 hmem).2
        simp at this
      rw [List.count_eq_zero.2 hnot]
      simp
    · have hcnt : ((firstOcc xs).filter (fun y => y ≠ x)).count u
          = (firstOcc xs).count u :=
        List.count_filter (by simp [he])
      rw [hcnt, ih u]
      have hxu : x ≠ u := fun h => he h.symm
      simp [List.mem_cons, he, hxu]

/-- Well-formedness of a group list relative to the carried identity:
each group's identity differs from its predecessor's (runs are maximal)
and is never the sentinel `""`. -/
def specFromOk : String → List (String × List String) → Prop
  | _, [] => True
  | cur, g :: gs => g.1 ≠ cur ∧ g.1 ≠ "" ∧ specFromOk g.1 gs

theorem specFrom_flat :
    ∀ (gs : List (String × List String)) (cur : String), cur ≠ "" →
    specFromOk cur gs →
    specFrom cur gs = gs.flatMap (fun g2 => Shape.sep :: specGroupShape g2) := by
  intro gs
  induction gs with
  | nil => intro cur _ _; rfl
  | cons g gs ih =>
    obtain ⟨tg, ks⟩ := g
    intro cur hcur hok
    obtain ⟨h1, h2, h3⟩ := hok
    show (if tg = cur then _ else _) ++ specFrom tg gs = _
    rw [if_neg h1, if_pos hcur, ih tg h2 h3]
    simp [specGroupShape]

theorem specFrom_grouped (gs : List (String × List String))
    (hok : specFromOk "" gs) :
    specFrom "" gs = specGroupedShape gs := by
  cases gs with
  | nil => rfl
  | cons g gs =>
    obtain ⟨tg, ks⟩ := g
    obtain ⟨h1, h2, h3⟩ := hok
    show (if tg = "" then _ else _) ++ specFrom tg gs = _
    rw [if_neg h2, specFrom_flat gs tg h2 h3]
    simp [specGroupedShape, specGroupShape]

/-- `groupRuns` produces maximal runs: adjacent groups carry distinct
identities, and with no `""` identity in the input no group has one. -/
theorem groupRuns_specFromOk :
    ∀ ps : List (String × String), (∀ p ∈ ps, (p : String × String).1 ≠ "") →
    specFromOk "" (groupRuns ps) := by
  intro ps
  induction ps with
  | nil => intro _; trivial
  | cons p ps ih =>
    obtain ⟨tg, k⟩ := p
    intro hall
    have htg : tg ≠ "" := hall (tg, k) (List.mem_cons_self _ _)
    have hps : ∀ p ∈ ps, (p : String × String).1 ≠ "" :=
      fun p hp => hall p (List.mem_cons_of_mem _ hp)
    have hih := ih hps
    cases hg : groupRuns ps with
    | nil =>
      simp only [groupRuns, hg]
      exact ⟨htg, htg, trivial⟩
    | cons g gs =>
      obtain ⟨tg2, ks⟩ := g
      rw [hg] at hih
      obtain ⟨h1, h2, h3⟩ := hih
      by_cases he : tg = tg2
      · simp only [groupRuns, hg, if_pos he]
        exact ⟨htg, htg, by rw [he]; exact h3⟩
      · simp only [groupRuns, hg, if_neg he]
        exact ⟨htg, htg, fun hh => he hh.symm, h2, h3⟩

/-- C9 (amended): for a merged ticket list stably sorted by origin
identity in which every origin identity is present and non-empty, the
render loop emits exactly the spec's grouped shape — one header per
distinct identity at its first occurrence, a blank-line separator before
every group except the first — and each distinct identity is headed
exactly once.  (The non-emptiness proviso is forced: an origin identity
equal to `""` collides with the loop's initial sentinel and gets no
header.) -/
theorem C9_group_headers_amended (getUser : String → Option JUser)
    (getDetails : String → Option Ticket) (comment_length : Nat)
    (username : String) (issues : List Ticket) (evs : List Chunk)
    (hTags : ∀ t ∈ issues, t.original_account_id.isSome)
    (hNe : ∀ t ∈ issues, t.original_account_id.getD "" ≠ "")
    (hSorted : List.Pairwise
      (fun a b : Ticket =>
        a.original_account_id.getD "" ≤ b.original_account_id.getD "") issues)
    (hRender : renderLoop getUser getDetails comment_length false username ""
      issues = .ok evs) :
    evs.map shapeOf
        = specGroupedShape (groupRuns (issues.map
            (fun t => (t.original_account_id.getD "", t.key))))
      ∧ headerIds evs
        = firstOcc (issues.map (fun t => t.original_account_id.getD ""))
      ∧ (∀ u, (headerIds evs).count u
          = if u ∈ issues.map (fun t => t.original_account_id.getD "")
            then 1 else 0) := by
  have hshape := renderLoop_shape getUser getDetails comment_length username
    issues "" evs hTags hRender
  have hfst : (issues.map (fun t => (t.original_account_id.getD "", t.key))).map
      Prod.fst = issues.map (fun t => t.original_account_id.getD "") := by
    simp [List.map_map]
  have hpairsNe : ∀ p ∈ issues.map
      (fun t => (t.original_account_id.getD "", t.key)),
      (p : String × String).1 ≠ "" := by
    intro p hp
    obtain ⟨t, ht, rfl⟩ := List.mem_map.1 hp
    exact hNe t ht
  have htagsSorted : List.Pairwise (· ≤ ·)
      (issues.map (fun t => t.original_account_id.getD "")) :=
    List.pairwise_map.2 hSorted
  have htagsNe : "" ∉ issues.map (fun t => t.original_account_id.getD "") := by
    intro hmem
    obtain ⟨t, ht, hEq⟩ := List.mem_map.1 hmem
    exact hNe t ht hEq
  have hheaders : headerIds evs
      = firstOcc (issues.map (fun t => t.original_account_id.getD "")) := by
    rw [← headerIds_eq_shape, hshape, shapeHeaderIds_specFrom, hfst,
      headerScan_firstOcc _ htagsSorted htagsNe]
  refine ⟨?_, hheaders, ?_⟩
  · rw [hshape]
    exact specFrom_grouped _ (groupRuns_specFromOk _ hpairsNe)
  · intro u
    rw [hheaders, count_firstOcc]

/-- A roster ticket whose origin identity is the empty string — the
value of the loop's initial `current_account_id` sentinel. -/
def blankTagTicket : Ticket :=
  { key := "PROJ-6", fields := rosterTicket.fields,
    original_account_id := some "" }

/-- A roster ticket with origin identity `u2`. -/
def u2TagTicket : Ticket :=
  { key := "PROJ-7", fields := rosterTicket.fields,
    original_account_id := some "u2" }

/-- A roster ticket with origin identity `u1`. -/
def u1TagTicket : Ticket :=
  { key := "PROJ-8", fields := rosterTicket.fields,
    original_account_id := some "u1" }

/-- Sortedness of the two-ticket example lists. -/
theorem pair_sorted (t1 t2 : Ticket)
    (h : t1.original_account_id.getD "" ≤ t2.original_account_id.getD "") :
    List.Pairwise (fun a b : Ticket =>
        a.original_account_id.getD "" ≤ b.original_account_id.getD "")
      [t1, t2] := by
  refine List.Pairwise.cons ?_ (List.pairwise_singleton _ _)
  intro t ht
  rcases List.mem_singleton.1 ht with rfl
  exact h

/-- C9 counterexample: on a sorted merged list whose first origin
identity is `""`, the render emits no header at all for that identity
(it collides with the initial sentinel) and no blank-line separator
before the second group — two distinct identities, one header, zero
separators. -/
theorem C9_blank_identity_counterexample :
    List.Pairwise (fun a b : Ticket =>
        a.original_account_id.getD "" ≤ b.original_account_id.getD "")
      [blankTagTicket, u2TagTicket]
    ∧ ∃ evs, renderLoop (fun _ => some { displayName := "Grp" })
        (fun _ => some rosterTicket) 80 false "user" ""
        [blankTagTicket, u2TagTicket] = .ok evs
      ∧ firstOcc ([blankTagTicket, u2TagTicket].map
          (fun t => t.original_account_id.getD "")) = ["", "u2"]
      ∧ headerIds evs = ["u2"]
      ∧ Shape.sep ∉ evs.map shapeOf := by
  refine ⟨pair_sorted _ _ (le_of_lt (String.lt_iff_toList_lt.mpr (by decide))),
    ⟨_, rfl, by decide, ?_, ?_⟩⟩
  · rfl
  · decide

/-- C9 witness: the amended grouping theorem applied to a concrete
sorted two-identity roster list. -/
theorem C9_group_headers_amended_witness :
    (∀ t ∈ [u1TagTicket, u2TagTicket], t.original_account_id.isSome)
    ∧ (∀ t ∈ [u1TagTicket, u2TagTicket], t.original_account_id.getD "" ≠ "")
    ∧ List.Pairwise (fun a b : Ticket =>
        a.original_account_id.getD "" ≤ b.original_account_id.getD "")
      [u1TagTicket, u2TagTicket]
    ∧ ∃ evs, renderLoop (fun _ => some { displayName := "Grp" })
        (fun _ => some rosterTicket) 80 false "user" ""
        [u1TagTicket, u2TagTicket] = .ok evs
      ∧ headerIds evs = firstOcc ([u1TagTicket, u2TagTicket].map
          (fun t => t.original_account_id.getD "")) := by
  obtain ⟨evs, hevs⟩ : ∃ evs, renderLoop (fun _ => some { displayName := "Grp" })
      (fun _ => some rosterTicket) 80 false "user" ""
      [u1TagTicket, u2TagTicket] = .ok evs := ⟨_, rfl⟩
  exact ⟨by decide, by decide,
    pair_sorted _ _ (le_of_lt (String.lt_iff_toList_lt.mpr (by decide))),
    evs, hevs,
    (C9_group_headers_amended (fun _ => some { displayName := "Grp" })
      (fun _ => some rosterTicket) 80 "user" [u1TagTicket, u2TagTicket] evs
      (by decide) (by decide)
      (pair_sorted _ _ (le_of_lt (String.lt_iff_toList_lt.mpr (by decide))))
      hevs).2.1⟩
